import Mathlib

/-!
Verification of the taf metadata authoring engine (`src/taf/developer_tool.py`)
against its natural-language specification.

The Python source is shallowly embedded: every function relevant to a claim is
translated into an executable Lean definition over explicit inputs.  Interactive
prompts (`click.confirm`, `input`, passphrase entry) are modelled as boolean or
string-valued environment functions supplied as arguments; filesystem and git
state is modelled as explicit data (directory listings, flags, commit shas).
Behaviour of this repository's code that is referenced but not present under
`src/` (the `taf.repository_tool.Repository` update methods and the TUF metadata
emission) is modelled from the spec; each such definition carries a doc comment
starting with `Modelled from the spec:`.
-/

namespace Taf

/-- Errors of the embedded operations.  `monotonicViolation` is the spec's name
for refusing a non-advancing expiration; `keystoreError` embeds Python's
`KeystoreError`; `attributeError`, `unboundLocal` and `indexError` embed the
corresponding Python runtime errors raised by the source. -/
inductive TafError where
  | monotonicViolation
  | keystoreError
  | attributeError
  | unboundLocal
  | indexError
  deriving DecidableEq

/-- A role's metadata as far as expiration refresh is concerned: the recorded
expiration timestamp (days, as an integer offset). -/
structure RoleMetadata where
  expiration : Int
  deriving DecidableEq

/-- Modelled from the spec: `taf.repository_tool.Repository.update_timestamp`,
`update_snapshot` and `update_targets_from_keystore` are called by
`update_metadata_expiration_date` (src/taf/developer_tool.py lines 767-810) but
their bodies are not under `src/`.  Per the spec (section 4.6), the refresh
"advances the named role's expiration to start_date + interval (days)" and
"refusing to set an expiration earlier than the currently recorded one is an
invariant (return MonotonicViolation)": the proposed expiration must be
strictly later than the current one, otherwise the operation fails without
writing. -/
def refreshExpiration (current startDate interval : Int) : Except TafError Int :=
  if startDate + interval ≤ current then .error .monotonicViolation
  else .ok (startDate + interval)

/-- Result of one expiration-refresh invocation: the role metadata afterwards,
whether a metadata write happened, and the error if one was raised. -/
structure ExpirationUpdateResult where
  metadata : RoleMetadata
  written : Bool
  error : Option TafError
  deriving DecidableEq

/-- Roles for which `update_metadata_expiration_date` has a `"<role>_keystore"`
entry in its `update_methods` dictionary (src/taf/developer_tool.py lines
777-782). -/
def keystoreUpdateRoles : List String := ["timestamp", "snapshot", "targets"]

/-- Embedding of `update_metadata_expiration_date` (src/taf/developer_tool.py
lines 767-810).  `keysLoaded` states whether `_load_signing_keys` returned a
non-empty list; `yubikeyTargetsLoaded` states whether some loaded yubikey holds
a `targets` key (the fallback branch).  The `update_methods` dictionary
lookups under the role-plus-suffix keys raise `KeyError` for other roles,
which the source catches and turns into a printed "Cannot update" message
without touching the metadata. -/
def update_metadata_expiration_date (role : String) (md : RoleMetadata)
    (startDate interval : Int) (keysLoaded yubikeyTargetsLoaded : Bool) :
    ExpirationUpdateResult :=
  if keysLoaded then
    if role ∈ keystoreUpdateRoles then
      match refreshExpiration md.expiration startDate interval with
      | .error e => { metadata := md, written := false, error := some e }
      | .ok newExp => { metadata := { expiration := newExp }, written := true, error := none }
    else
      { metadata := md, written := false, error := none }
  else if yubikeyTargetsLoaded then
    if role = "targets" then
      match refreshExpiration md.expiration startDate interval with
      | .error e => { metadata := md, written := false, error := some e }
      | .ok newExp => { metadata := { expiration := newExp }, written := true, error := none }
    else
      { metadata := md, written := false, error := none }
  else
    { metadata := md, written := false, error := none }

/-- The refresh is actually attempted for this role with these loaded keys:
either keystore keys were loaded and the role has a `"<role>_keystore"` update
method, or no keystore key was loaded and a yubikey holding a targets key
drives the `"targets_yubikey"` method. -/
def refreshAttempted (role : String) (keysLoaded yubikeyTargetsLoaded : Bool) : Prop :=
  (keysLoaded = true ∧ role ∈ keystoreUpdateRoles) ∨
  (keysLoaded = false ∧ yubikeyTargetsLoaded = true ∧ role = "targets")

instance (role : String) (kl yt : Bool) : Decidable (refreshAttempted role kl yt) := by
  unfold refreshAttempted
  infer_instance

/-- Environment of one `_load_signing_keys` call: the set of file names present
in the keystore directory (`none` when `keystore is None`), the
`role_key_infos[role].get("yubikey")` value (`none` when the role or the key is
absent), and the user's answers to the "load more keys?" and "sign using
YubiKey(s)?" confirmations, indexed by the `num_of_signatures` counter at which
they are asked.  Keystore reads and command-line key prompts are assumed to
succeed (their failures raise and are outside this claim). -/
structure KeyLoadEnv where
  keystore : Option (List String)
  roleKeyInfoYubikey : Option Bool
  confirmMore : Nat → Bool
  confirmYubikey : Nat → Bool

/-- Candidate keystore file names tried by `_load_signing_keys`
(src/taf/developer_tool.py lines 126-128): `role` followed by
`role1 … roleN` where `N` is the role's number of signing keys. -/
def keystoreCandidateNames (role : String) (signingKeysNum : Nat) : List String :=
  role :: (List.range signingKeysNum).map (fun c => role ++ toString (c + 1))

/-- The interactive `while` loop of `_load_signing_keys`
(src/taf/developer_tool.py lines 137-161).  `num` is `num_of_signatures`;
keystore-loaded keys are tagged `keystore:` and prompt-entered keys
`prompt:`; yubikey-loaded keys are pushed into the second component
(`loaded_yubikeys`), not into the returned list.  One recursive call models one
loop iteration; the iteration that answers "no more keys" exits without
loading, exactly as the source does.  The loop increments `num` on every
iteration and runs while `num < signingKeysNum`, so passing
`fuel = signingKeysNum - num` makes the structural fuel equal the remaining
iteration count: the `fuel = 0` case coincides with the source's loop guard. -/
def lskLoop (role : String) (threshold signingKeysNum : Nat)
    (infoYubikey : Option Bool) (confirmMore confirmYubikey : Nat → Bool) :
    Nat → Nat → List String → List String → List String × List String
  | 0, _, keys, yubis => (keys, yubis)
  | fuel + 1, num, keys, yubis =>
    if signingKeysNum ≤ num then (keys, yubis)
    else
      let keyName := if signingKeysNum = 1 then role else role ++ toString (num + 1)
      if threshold ≤ num && !(confirmMore num) then (keys, yubis)
      else
        let isYk := infoYubikey.getD (confirmYubikey num)
        if isYk then
          lskLoop role threshold signingKeysNum infoYubikey confirmMore confirmYubikey
            fuel (num + 1) keys (yubis ++ [keyName])
        else
          lskLoop role threshold signingKeysNum infoYubikey confirmMore confirmYubikey
            fuel (num + 1) (keys ++ ["prompt:" ++ keyName]) yubis

/-- Keystore phase of `_load_signing_keys` (src/taf/developer_tool.py lines
121-135): every candidate name whose file exists in the keystore directory is
loaded, in order, one `num_of_signatures` increment per load. -/
def keystoreLoadedKeys (role : String) (signingKeysNum : Nat)
    (keystore : Option (List String)) : List String :=
  match keystore with
  | none => []
  | some files =>
    ((keystoreCandidateNames role signingKeysNum).filter
      (fun n => files.contains n)).map (fun n => "keystore:" ++ n)

/-- Embedding of `_load_signing_keys` (src/taf/developer_tool.py lines
102-162).  First every existing keystore candidate file is loaded, then the
interactive loop runs while the `num_of_signatures` counter is below the
role's number of keys.  Returns the loaded private keys and the
`loaded_yubikeys` names. -/
def load_signing_keys (role : String) (threshold signingKeysNum : Nat)
    (env : KeyLoadEnv) : List String × List String :=
  lskLoop role threshold signingKeysNum env.roleKeyInfoYubikey env.confirmMore
    env.confirmYubikey
    (signingKeysNum - (keystoreLoadedKeys role signingKeysNum env.keystore).length)
    (keystoreLoadedKeys role signingKeysNum env.keystore).length
    (keystoreLoadedKeys role signingKeysNum env.keystore) []



/-- A target entry as recorded by `Repository.add_existing_target` for one file
found under `targets/`: its repository-relative POSIX path and the recorded
content data (length and hashes, abstracted as the bytes they are computed
from). -/
abbrev TargetEntry := String × String

/-- One `taf_repo.add_existing_target` call (src/taf/developer_tool.py line
695) appends the walked file to the targets role's entries. -/
def add_existing_target (entries : List TargetEntry) (e : TargetEntry) :
    List TargetEntry :=
  entries ++ [e]

/-- The target-registration loop of `register_target_files`
(src/taf/developer_tool.py lines 693-695): every file produced by the
`os.walk` traversal of the targets directory, in traversal order, is added as
an existing target. -/
def register_target_files (walk : List TargetEntry) : List TargetEntry :=
  walk.foldl add_existing_target []

/-- Order on target entries used for emission: by path. -/
def entryLE (a b : TargetEntry) : Prop := a.1 ≤ b.1

instance : DecidableRel entryLE := fun a b =>
  inferInstanceAs (Decidable (a.1 ≤ b.1))

instance : IsTotal TargetEntry entryLE :=
  ⟨fun a b => le_total a.1 b.1⟩

instance : IsTrans TargetEntry entryLE :=
  ⟨fun _ _ _ hab hbc => le_trans hab hbc⟩

/-- Byte rendering of an ordered run of target entries inside `targets.json`. -/
def renderTargetEntries (entries : List TargetEntry) : String :=
  entries.foldl
    (fun acc e => acc ++ "\"" ++ e.1 ++ "\": " ++ e.2 ++ ",\n") ""

/-- Modelled from the spec: the `targets.json` emission
(`Repository.writeall`, taf.repository_tool / TUF, not under `src/`) "must be
stable — sort entries by path (POSIX) before emission to guarantee
byte-for-byte reproducibility across platforms" (spec section 4.5).  The
recorded entries are sorted by path and then rendered. -/
def emitTargetsJson (entries : List TargetEntry) : String :=
  renderTargetEntries (entries.insertionSort entryLE)

/-- Per-role key configuration from `roles_key_infos`
(`key_info.get("number", 1)`, `key_info.get("threshold", 1)`,
`key_info.get("yubikey", False)`, `key_info.get("length", 3072)`); an absent
`yubikey` key is the same as `yubikey: false`. -/
structure RoleKeyInfo where
  number : Nat := 1
  threshold : Nat := 1
  yubikey : Bool := false
  length : Nat := 3072
  deriving DecidableEq

/-- Observable effects of `create_repository`, in program order. -/
inductive CreateEvent where
  | keystoreLoad (keyName : String)
  | keystoreGenerate (keyName : String)
  | yubikeyPrompt (keyName : String)
  | testMarker
  | writeAll
  deriving DecidableEq

/-- Keystore-related environment of a `create_repository` call: whether a
keystore directory was provided (`keystore is not None`), which key files load
without error, and the user's answers to the "Generate new keys?" and "Write
keys to keystore files?" confirmations. -/
structure KeystoreEnv where
  present : Bool
  loadOk : String → Bool
  regenerate : String → Bool
  writeBack : String → Bool

/-- Embedding of `_get_key_name` (src/taf/developer_tool.py lines 597-601). -/
def get_key_name (roleName : String) (keyNum numOfKeys : Nat) : String :=
  if numOfKeys = 1 then roleName else roleName ++ toString (keyNum + 1)

/-- The four canonical role objects of the TUF repository object. -/
inductive RoleObj where
  | root | targets | snapshot | timestamp
  deriving DecidableEq

/-- Embedding of `_role_obj` (src/taf/developer_tool.py lines 703-711): the
if/elif chain has no else branch, so any other role name returns `None`. -/
def role_obj (role : String) : Option RoleObj :=
  if role = "targets" then some .targets
  else if role = "snapshot" then some .snapshot
  else if role = "timestamp" then some .timestamp
  else if role = "root" then some .root
  else none

/-- Embedding of `_register_key` (src/taf/developer_tool.py lines 286-317): if
a keystore is given and the key files load, use them; on a `KeystoreError`
ask to regenerate, re-raising the error when the user declines; regenerated
keys are optionally written back to the keystore; without a keystore the key
is generated in memory. -/
def register_key (ks : KeystoreEnv) (keyName : String) :
    Except TafError (List CreateEvent) :=
  if ks.present then
    if ks.loadOk keyName then .ok [.keystoreLoad keyName]
    else if ks.regenerate keyName then
      if ks.writeBack keyName then
        .ok [.keystoreGenerate keyName, .keystoreLoad keyName]
      else
        .ok [.keystoreGenerate keyName]
    else .error .keystoreError
  else .ok [.keystoreGenerate keyName]

/-- Key-registration loop of `_register_roles_keys` (src/taf/developer_tool.py
lines 363-380) over `range(num_of_keys)`, producing the events emitted before
a failure together with the failure, if any.  `_register_yubikey`'s
confirmation retry loop is elided: its observable effect here is the
`yubikey_prompt` (a token prompt) per key. -/
def registerKeysAcc (ks : KeystoreEnv) (roleName : String) (info : RoleKeyInfo) :
    List Nat → List CreateEvent × Option TafError
  | [] => ([], none)
  | keyNum :: rest =>
    let keyName := get_key_name roleName keyNum info.number
    if info.yubikey then
      (CreateEvent.yubikeyPrompt keyName :: (registerKeysAcc ks roleName info rest).1,
       (registerKeysAcc ks roleName info rest).2)
    else
      match register_key ks keyName with
      | .error e => ([], some e)
      | .ok evs =>
        (evs ++ (registerKeysAcc ks roleName info rest).1,
         (registerKeysAcc ks roleName info rest).2)

/-- Embedding of `_register_roles_keys` (src/taf/developer_tool.py lines
356-380): `_role_obj` is looked up first and its `threshold` attribute
assigned, which raises `AttributeError` on `None` for a role outside the four
canonical ones, before any key is registered. -/
def registerRolesKeysAcc (ks : KeystoreEnv) (roleName : String)
    (info : RoleKeyInfo) : List CreateEvent × Option TafError :=
  match role_obj roleName with
  | none => ([], some .attributeError)
  | some _ => registerKeysAcc ks roleName info (List.range info.number)

/-- One registration pass of `create_repository` (src/taf/developer_tool.py
lines 385-391): the roles whose `yubikey` flag equals `yubikeyPass` are
registered in configuration order; the first failure stops the pass. -/
def registerPassAcc (ks : KeystoreEnv) (yubikeyPass : Bool) :
    List (String × RoleKeyInfo) → List CreateEvent × Option TafError
  | [] => ([], none)
  | (roleName, info) :: rest =>
    if info.yubikey = yubikeyPass then
      match (registerRolesKeysAcc ks roleName info).2 with
      | some e => ((registerRolesKeysAcc ks roleName info).1, some e)
      | none =>
        ((registerRolesKeysAcc ks roleName info).1 ++
          (registerPassAcc ks yubikeyPass rest).1,
         (registerPassAcc ks yubikeyPass rest).2)
    else registerPassAcc ks yubikeyPass rest

/-- Outcome of a `create_repository` call.  `failed .keystoreError` is the
caught `KeystoreError` (printed, then `return`); any other error propagates
out of the function; both leave the metadata unwritten. -/
inductive CreateOutcome where
  | alreadyExists
  | failed (e : TafError)
  | success
  deriving DecidableEq

/-- Result of a `create_repository` call: its observable events in order and
its outcome. -/
structure CreateResult where
  events : List CreateEvent
  outcome : CreateOutcome
  deriving DecidableEq

/-- Inputs of `create_repository` (src/taf/developer_tool.py lines 320-411):
the parsed `roles_key_infos` (in dictionary order), the roles the user would
enter interactively when it is empty (`_enter_roles_infos`), whether the
repository path is an existing directory hosting a git repository, and the
`test` flag. -/
structure CreateInput where
  rolesKeyInfos : List (String × RoleKeyInfo)
  enteredRolesInfos : List (String × RoleKeyInfo)
  pathIsDir : Bool
  isGitRepository : Bool
  test : Bool

/-- The role configuration actually used: when `roles_key_infos` is empty the
user is prompted for it (src/taf/developer_tool.py lines 343-345). -/
def effectiveRolesKeyInfos (inp : CreateInput) : List (String × RoleKeyInfo) :=
  if inp.rolesKeyInfos.isEmpty then inp.enteredRolesInfos else inp.rolesKeyInfos

/-- Embedding of `create_repository` (src/taf/developer_tool.py lines
320-411): return early when the path already hosts a git repository; register
all non-yubikey roles first, then all yubikey roles; a `KeystoreError` is
caught and aborts the creation, any other error propagates; on success the
`test` marker target is added if requested and all metadata is written
(`repository.writeall()`).  The optional git-commit step after `writeall` is
outside the claims and elided. -/
def create_repository (inp : CreateInput) (ks : KeystoreEnv) : CreateResult :=
  let roles := effectiveRolesKeyInfos inp
  if inp.pathIsDir && inp.isGitRepository then
    { events := [], outcome := .alreadyExists }
  else
    match (registerPassAcc ks false roles).2 with
    | some e => { events := (registerPassAcc ks false roles).1, outcome := .failed e }
    | none =>
      match (registerPassAcc ks true roles).2 with
      | some e =>
        { events := (registerPassAcc ks false roles).1 ++ (registerPassAcc ks true roles).1,
          outcome := .failed e }
      | none =>
        { events := (registerPassAcc ks false roles).1 ++ (registerPassAcc ks true roles).1 ++
            (if inp.test then [CreateEvent.testMarker] else []) ++ [CreateEvent.writeAll],
          outcome := .success }

/-- Recognizer for token (YubiKey) prompts. -/
def CreateEvent.isTokenPrompt : CreateEvent → Bool
  | .yubikeyPrompt _ => true
  | _ => false

/-- Recognizer for keystore key registrations (loads or generations). -/
def CreateEvent.isKeystoreReg : CreateEvent → Bool
  | .keystoreLoad _ => true
  | .keystoreGenerate _ => true
  | _ => false

/-- No keystore key registration happens at or after the first token prompt in
the event trace. -/
def noKeystoreAfterToken : List CreateEvent → Bool
  | [] => true
  | e :: rest =>
    if e.isTokenPrompt then rest.all (fun x => !x.isKeystoreReg)
    else noKeystoreAfterToken rest

/-- Some non-yubikey role of the configuration has a key whose keystore files
fail to load and whose regeneration the user declines. -/
def hasDecliningKeystoreFailure (roles : List (String × RoleKeyInfo))
    (ks : KeystoreEnv) : Prop :=
  ∃ rk ∈ roles, rk.2.yubikey = false ∧
    ∃ k ∈ List.range rk.2.number,
      ks.loadOk (get_key_name rk.1 k rk.2.number) = false ∧
      ks.regenerate (get_key_name rk.1 k rk.2.number) = false

instance (roles : List (String × RoleKeyInfo)) (ks : KeystoreEnv) :
    Decidable (hasDecliningKeystoreFailure roles ks) := by
  unfold hasDecliningKeystoreFailure
  infer_instance

/-- Lower-case hexadecimal digit. -/
def hexDigit (n : Nat) : Char :=
  if n < 10 then Char.ofNat (48 + n) else Char.ofNat (87 + n)

/-- Four-digit hexadecimal rendering used by JSON `\u` escapes. -/
def hex4 (n : Nat) : String :=
  String.mk [hexDigit (n / 4096 % 16), hexDigit (n / 256 % 16),
    hexDigit (n / 16 % 16), hexDigit (n % 16)]

/-- Escaping of one character exactly as Python's `json.dumps` (default
`ensure_ascii=True`) emits it inside a string literal: quote, backslash and
the short control escapes, `\uXXXX` for the remaining control and non-ASCII
characters (surrogate pairs above the BMP), the character itself otherwise. -/
def jsonEscapeChar (c : Char) : String :=
  if c = '"' then "\\\""
  else if c = '\\' then "\\\\"
  else if c = '\n' then "\\n"
  else if c = '\t' then "\\t"
  else if c = '\r' then "\\r"
  else if c.toNat = 8 then "\\b"
  else if c.toNat = 12 then "\\f"
  else if c.toNat < 32 || 126 < c.toNat then
    if c.toNat < 65536 then "\\u" ++ hex4 c.toNat
    else
      "\\u" ++ hex4 (55296 + (c.toNat - 65536) / 1024) ++
        "\\u" ++ hex4 (56320 + (c.toNat - 65536) % 1024)
  else String.singleton c

/-- A JSON string literal as `json.dumps` emits it. -/
def jsonString (s : String) : String :=
  "\"" ++ String.join (s.data.map jsonEscapeChar) ++ "\""

/-- Last character of a string, if any. -/
def lastChar (s : String) : Option Char :=
  s.data.getLast?

/-- Embedding of the descriptor serialization of `_update_target_repos`
(src/taf/developer_tool.py line 176): `json.dumps(data, indent=4)` for the
dictionary holding `commit` and, when present, `branch`, in insertion order;
`json.dumps` emits no trailing newline. -/
def jsonDescriptor (commit : String) (branch : Option String) : String :=
  "\x7b\n    " ++ jsonString "commit" ++ ": " ++ jsonString commit ++
  (match branch with
   | none => ""
   | some b => ",\n    " ++ jsonString "branch" ++ ": " ++ jsonString b) ++
  "\n\x7d"

/-- The descriptor content exactly as the spec words it (sections 4.5 and 6):
the JSON object with the `commit` key, extended with the `branch` key exactly
when `add_branch` is true, serialized with indent 4 and no trailing newline. -/
def specDescriptorJson (commit branch : String) (addBranch : Bool) : String :=
  if addBranch then
    "\x7b\n    " ++ jsonString "commit" ++ ": " ++ jsonString commit ++
      ",\n    " ++ jsonString "branch" ++ ": " ++ jsonString branch ++ "\n\x7d"
  else
    "\x7b\n    " ++ jsonString "commit" ++ ": " ++ jsonString commit ++ "\n\x7d"

/-- Git-visible state of one candidate target-repository directory. -/
structure TargetRepoState where
  isDir : Bool
  isGitRepository : Bool
  headCommitSha : String
  currentBranch : String

/-- Embedding of `_update_target_repos` (src/taf/developer_tool.py lines
165-177): skip non-directories, the auth repo itself and non-git directories;
otherwise write the descriptor file `targets_dir/<repo name>` and return the
written path and content (`None` models the early returns, where nothing is
written). -/
def update_target_repos (repoPath targetRepoPath targetsDir repoName : String)
    (st : TargetRepoState) (addBranch : Bool) : Option (String × String) :=
  if !st.isDir || targetRepoPath = repoPath then none
  else if !st.isGitRepository then none
  else
    some (targetsDir ++ "/" ++ repoName,
      jsonDescriptor st.headCommitSha
        (if addBranch then some st.currentBranch else none))

/-- One directory produced by the `targets_directory.glob("*")` traversal in
`generate_repositories_json`, with the git facts the source reads from it:
whether it is a directory, whether it equals the auth repo path, whether it is
a git repository, its remote URL if any, and the two path renderings used for
remoteless repositories (absolute, and relative to `targets_relative_dir`),
both already in POSIX form. -/
structure TraversalEntry where
  name : String
  isDir : Bool
  isAuthRepo : Bool
  isGitRepository : Bool
  remoteUrl : Option String
  absPath : String
  relPath : String

/-- One value of the `repositories` dictionary. -/
structure RepoEntry where
  urls : List String
  custom : Option (List (String × String))
  deriving DecidableEq

/-- Namespaced repository name (src/taf/developer_tool.py lines 570-573): the
bare name when the namespace string is falsy (empty), else
`namespace/name`. -/
def namespacedName (ns name : String) : String :=
  if ns = "" then name else ns ++ "/" ++ name

/-- URL recorded for a repository (src/taf/developer_tool.py lines 578-585):
the remote URL when set, otherwise the POSIX path relative to
`targets_relative_dir` when that is given, otherwise the absolute POSIX
path. -/
def repoUrl (relDirSet : Bool) (e : TraversalEntry) : String :=
  match e.remoteUrl with
  | some u => u
  | none => if relDirSet then e.relPath else e.absPath

/-- The `repositories` dictionary built by `generate_repositories_json`
(src/taf/developer_tool.py lines 563-590), in traversal (insertion) order;
custom data is attached under the `custom` key when present.  Directory names
produced by one `glob` are distinct, so dictionary insertion is an ordered
append. -/
def generateRepositoriesEntries (ns : String) (relDirSet : Bool)
    (customData : List (String × List (String × String))) :
    List TraversalEntry → List (String × RepoEntry)
  | [] => []
  | e :: rest =>
    if !e.isDir || e.isAuthRepo then
      generateRepositoriesEntries ns relDirSet customData rest
    else if !e.isGitRepository then
      generateRepositoriesEntries ns relDirSet customData rest
    else
      (namespacedName ns e.name,
        { urls := [repoUrl relDirSet e],
          custom := customData.lookup (namespacedName ns e.name) }) ::
        generateRepositoriesEntries ns relDirSet customData rest

/-- Rendering of a JSON string list at the given indentation, as
`json.dumps(..., indent=4)` emits it. -/
def renderStringList (ind : String) (l : List String) : String :=
  match l with
  | [] => "[]"
  | _ =>
    "[\n" ++
      String.intercalate ",\n" (l.map (fun s => ind ++ "    " ++ jsonString s)) ++
      "\n" ++ ind ++ "]"

/-- Rendering of a JSON object with string values at the given indentation. -/
def renderStrObj (ind : String) (l : List (String × String)) : String :=
  match l with
  | [] => "\x7b\x7d"
  | _ =>
    "\x7b\n" ++
      String.intercalate ",\n" (l.map (fun p =>
        ind ++ "    " ++ jsonString p.1 ++ ": " ++ jsonString p.2)) ++
      "\n" ++ ind ++ "\x7d"

/-- Rendering of one `repositories` value at the given indentation. -/
def renderRepoEntry (ind : String) (e : RepoEntry) : String :=
  "\x7b\n" ++ ind ++ "    " ++ jsonString "urls" ++ ": " ++
    renderStringList (ind ++ "    ") e.urls ++
  (match e.custom with
   | none => ""
   | some c => ",\n" ++ ind ++ "    " ++ jsonString "custom" ++ ": " ++
       renderStrObj (ind ++ "    ") c) ++
  "\n" ++ ind ++ "\x7d"

/-- The bytes of the `json.dumps` call on the object holding the
`repositories` dictionary, with indent 4
(src/taf/developer_tool.py line 593): entries in dictionary (insertion) order,
indent 4, and no trailing newline — `json.dumps` never appends one and the
source calls `write_text` on its result directly. -/
def reposJsonDumps (entries : List (String × RepoEntry)) : String :=
  match entries with
  | [] => "\x7b\n    " ++ jsonString "repositories" ++ ": \x7b\x7d\n\x7d"
  | _ =>
    "\x7b\n    " ++ jsonString "repositories" ++ ": \x7b\n" ++
      String.intercalate ",\n" (entries.map (fun p =>
        "        " ++ jsonString p.1 ++ ": " ++ renderRepoEntry "        " p.2)) ++
      "\n    \x7d\n\x7d"

/-- Embedding of `generate_repositories_json` (src/taf/developer_tool.py lines
525-594): the content written to `targets/repositories.json`. -/
def generate_repositories_json (ns : String) (relDirSet : Bool)
    (customData : List (String × List (String × String)))
    (traversal : List TraversalEntry) : String :=
  reposJsonDumps (generateRepositoriesEntries ns relDirSet customData traversal)

/-- Splitting of a character list at every `/`, the list-level counterpart of
Python's `str.split("/")`; the empty string yields one empty part. -/
def splitSlashChars : List Char → List (List Char)
  | [] => [[]]
  | c :: rest =>
    if c = '/' then [] :: splitSlashChars rest
    else
      match splitSlashChars rest with
      | [] => [[c]]
      | h :: t => (c :: h) :: t

/-- Embedding of Python's `repo_name.rsplit("/", 1)`: one split at the last
separator, or the singleton list when the name holds no `/`. -/
def rsplitSlash (s : String) : List String :=
  match (splitSlashChars s.data).map (fun l => String.mk l) with
  | [] => [s]
  | [x] => [x]
  | parts => [String.intercalate "/" parts.dropLast, (parts.getLast?).getD ""]

/-- Loop of `update_target_repos_from_repositories_json`
(src/taf/developer_tool.py lines 238-245): `targets_dir` is a plain local
variable, assigned only inside the `if len(namespace_and_name) > 1` branch and
otherwise retaining its previous value; referencing it before any assignment
raises Python's `UnboundLocalError`, modelled by the `none` state.  Returns the
targets directory used for each repository, in order. -/
def updateReposLoop (authRepoTargetsDir : String) :
    Option String → List String → Except TafError (List String)
  | _, [] => .ok []
  | targetsDir, repoName :: rest =>
    let parts := rsplitSlash repoName
    let targetsDir' :=
      if parts.length > 1 then
        some (authRepoTargetsDir ++ "/" ++ parts.headD "")
      else targetsDir
    match targetsDir' with
    | none => .error .unboundLocal
    | some td =>
      match updateReposLoop authRepoTargetsDir (some td) rest with
      | .error e => .error e
      | .ok tds => .ok (td :: tds)

/-- Embedding of `update_target_repos_from_repositories_json`
(src/taf/developer_tool.py lines 212-245) over the repository names read from
`repositories.json`, in order; `targets_dir` starts unassigned. -/
def update_target_repos_from_repositories_json (authRepoTargetsDir : String)
    (repoNames : List String) : Except TafError (List String) :=
  updateReposLoop authRepoTargetsDir none repoNames

/-- One signing-related call issued by `_write_targets_metadata`. -/
inductive SigningCall where
  | updateTargetsFromKeystore (key : String)
  | updateTargetsYubikey
  | updateSnapshotAndTimestamp (snapshotKey timestampKey : String)
  | writeAll
  deriving DecidableEq

/-- Embedding of `_write_targets_metadata` (src/taf/developer_tool.py lines
813-836), the metadata-writing step of `register_target_files`: the targets
update receives `targets_keys[0]` when the keystore loaded any targets key,
otherwise a loaded yubikey holding a targets key signs;
`snapshot_keys[0]` / `timestamp_keys[0]` raise `IndexError` on empty lists;
the remaining elements of each loaded key list are never passed on. -/
def write_targets_metadata (targetsKeys snapshotKeys timestampKeys : List String)
    (yubikeyWithTargets : Bool) : Except TafError (List SigningCall) :=
  let targetsCalls : List SigningCall :=
    match targetsKeys with
    | k :: _ => [.updateTargetsFromKeystore k]
    | [] => if yubikeyWithTargets then [.updateTargetsYubikey] else []
  match snapshotKeys with
  | [] => .error .indexError
  | sk :: _ =>
    match timestampKeys with
    | [] => .error .indexError
    | tk :: _ =>
      .ok (targetsCalls ++ [.updateSnapshotAndTimestamp sk tk, .writeAll])

/-- Keystore keys passed to the targets update across a call list. -/
def usedTargetsKeys (calls : List SigningCall) : List String :=
  calls.foldr (fun c acc =>
    match c with
    | .updateTargetsFromKeystore k => k :: acc
    | _ => acc) []

/-! ## Theorems settling the claims -/

theorem lskLoop_length_le (role : String) (threshold signingKeysNum : Nat)
    (infoYubikey : Option Bool) (confirmMore confirmYubikey : Nat → Bool)
    (fuel : Nat) : ∀ (num : Nat) (keys yubis : List String),
    (lskLoop role threshold signingKeysNum infoYubikey confirmMore confirmYubikey
      fuel num keys yubis).1.length ≤ keys.length + fuel := by
  induction fuel with
  | zero => intro num keys yubis; simp [lskLoop]
  | succ fuel ih =>
    intro num keys yubis
    rw [lskLoop.eq_2]
    by_cases h1 : signingKeysNum ≤ num
    · simp only [if_pos h1]; omega
    · simp only [if_neg h1]
      by_cases h2 : (threshold ≤ num && !(confirmMore num)) = true
      · simp only [if_pos h2]; omega
      · simp only [if_neg h2]
        cases hyk : infoYubikey.getD (confirmYubikey num) with
        | true =>
          simp only [hyk, if_true]
          have := ih (num + 1) keys (yubis ++ [if signingKeysNum = 1 then role
            else role ++ toString (num + 1)])
          omega
        | false =>
          simp only [hyk, Bool.false_eq_true, if_false]
          have := ih (num + 1)
            (keys ++ ["prompt:" ++ (if signingKeysNum = 1 then role
              else role ++ toString (num + 1))]) yubis
          simp only [List.length_append, List.length_cons, List.length_nil] at this ⊢
          omega

theorem lskLoop_threshold_le (role : String) (threshold signingKeysNum : Nat)
    (confirmMore confirmYubikey : Nat → Bool) (hTN : threshold ≤ signingKeysNum)
    (fuel : Nat) : ∀ (num : Nat) (keys yubis : List String),
    keys.length = num → fuel = signingKeysNum - num →
    threshold ≤ (lskLoop role threshold signingKeysNum (some false) confirmMore
      confirmYubikey fuel num keys yubis).1.length := by
  induction fuel with
  | zero =>
    intro num keys yubis hlen hfuel
    simp only [lskLoop]
    omega
  | succ fuel ih =>
    intro num keys yubis hlen hfuel
    rw [lskLoop.eq_2]
    by_cases h1 : signingKeysNum ≤ num
    · simp only [if_pos h1]; omega
    · simp only [if_neg h1]
      by_cases h2 : (threshold ≤ num && !(confirmMore num)) = true
      · simp only [if_pos h2]
        have := (Bool.and_eq_true _ _).mp h2
        have ht : threshold ≤ num := by
          have := this.1
          exact Nat.le_of_ble_eq_true (by simpa using this)
        omega
      · simp only [if_neg h2, Bool.false_eq_true, if_false]
        apply ih
        · simp [hlen]
        · omega

theorem register_key_events_keystore (ks : KeystoreEnv) (keyName : String)
    (evs : List CreateEvent) (h : register_key ks keyName = .ok evs) :
    evs.all (fun e => e.isKeystoreReg) = true := by
  unfold register_key at h
  split at h
  · split at h
    · cases h
      rfl
    · split at h
      · split at h
        · cases h
          rfl
        · cases h
          rfl
      · simp at h
  · cases h
    rfl

theorem registerKeysAcc_events_keystore (ks : KeystoreEnv) (roleName : String)
    (info : RoleKeyInfo) (hyk : info.yubikey = false) :
    ∀ nums : List Nat,
      ((registerKeysAcc ks roleName info nums).1.all (fun e => e.isKeystoreReg)) = true := by
  intro nums
  induction nums with
  | nil => rfl
  | cons k rest ih =>
    rw [registerKeysAcc]
    simp only [hyk, Bool.false_eq_true, if_false]
    cases hr : register_key ks (get_key_name roleName k info.number) with
    | error e => simp
    | ok evs =>
      have hevs := register_key_events_keystore ks _ evs hr
      simp [List.all_append, hevs, ih]

theorem registerRolesKeysAcc_events_keystore (ks : KeystoreEnv) (roleName : String)
    (info : RoleKeyInfo) (hyk : info.yubikey = false) :
    ((registerRolesKeysAcc ks roleName info).1.all (fun e => e.isKeystoreReg)) = true := by
  unfold registerRolesKeysAcc
  cases role_obj roleName with
  | none => rfl
  | some r => exact registerKeysAcc_events_keystore ks roleName info hyk _

theorem registerPassAcc_false_events_keystore (ks : KeystoreEnv) :
    ∀ roles : List (String × RoleKeyInfo),
      ((registerPassAcc ks false roles).1.all (fun e => e.isKeystoreReg)) = true := by
  intro roles
  induction roles with
  | nil => rfl
  | cons rk rest ih =>
    obtain ⟨roleName, info⟩ := rk
    rw [registerPassAcc]
    by_cases hyk : info.yubikey = false
    · rw [if_pos hyk]
      cases he : (registerRolesKeysAcc ks roleName info).2 with
      | some e =>
        exact registerRolesKeysAcc_events_keystore ks roleName info hyk
      | none =>
        simp only [List.all_append]
        rw [registerRolesKeysAcc_events_keystore ks roleName info hyk, ih]
        rfl
    · rw [if_neg hyk]
      exact ih

theorem registerKeysAcc_yubikey_events (ks : KeystoreEnv) (roleName : String)
    (info : RoleKeyInfo) (hyk : info.yubikey = true) :
    ∀ nums : List Nat,
      ((registerKeysAcc ks roleName info nums).1.all (fun e => !e.isKeystoreReg)) = true := by
  intro nums
  induction nums with
  | nil => rfl
  | cons k rest ih =>
    rw [registerKeysAcc]
    simp only [hyk, if_true]
    rw [List.all_cons, ih]
    rfl

theorem registerRolesKeysAcc_yubikey_events (ks : KeystoreEnv) (roleName : String)
    (info : RoleKeyInfo) (hyk : info.yubikey = true) :
    ((registerRolesKeysAcc ks roleName info).1.all (fun e => !e.isKeystoreReg)) = true := by
  unfold registerRolesKeysAcc
  cases role_obj roleName with
  | none => rfl
  | some r => exact registerKeysAcc_yubikey_events ks roleName info hyk _

theorem registerPassAcc_true_events (ks : KeystoreEnv) :
    ∀ roles : List (String × RoleKeyInfo),
      ((registerPassAcc ks true roles).1.all (fun e => !e.isKeystoreReg)) = true := by
  intro roles
  induction roles with
  | nil => rfl
  | cons rk rest ih =>
    obtain ⟨roleName, info⟩ := rk
    rw [registerPassAcc]
    by_cases hyk : info.yubikey = true
    · rw [if_pos hyk]
      cases he : (registerRolesKeysAcc ks roleName info).2 with
      | some e =>
        exact registerRolesKeysAcc_yubikey_events ks roleName info hyk
      | none =>
        simp only [List.all_append]
        rw [registerRolesKeysAcc_yubikey_events ks roleName info hyk, ih]
        rfl
    · rw [if_neg hyk]
      exact ih

theorem all_keystore_all_not_token (l : List CreateEvent)
    (h : l.all (fun e => e.isKeystoreReg) = true) :
    l.all (fun e => !e.isTokenPrompt) = true := by
  rw [List.all_eq_true] at h ⊢
  intro e he
  have := h e he
  cases e <;> simp_all [CreateEvent.isKeystoreReg, CreateEvent.isTokenPrompt]

theorem all_keystore_no_writeAll (l : List CreateEvent)
    (h : l.all (fun e => e.isKeystoreReg) = true) :
    CreateEvent.writeAll ∉ l := by
  intro hmem
  rw [List.all_eq_true] at h
  have := h _ hmem
  simp [CreateEvent.isKeystoreReg] at this

theorem noKeystoreAfterToken_of_no_keystore (B : List CreateEvent)
    (hB : B.all (fun e => !e.isKeystoreReg) = true) :
    noKeystoreAfterToken B = true := by
  induction B with
  | nil => rfl
  | cons e rest ih =>
    rw [List.all_cons, Bool.and_eq_true] at hB
    rw [noKeystoreAfterToken]
    by_cases ht : e.isTokenPrompt = true
    · rw [if_pos ht]
      exact hB.2
    · rw [if_neg ht]
      exact ih hB.2

theorem noKeystoreAfterToken_append (A B : List CreateEvent)
    (hA : A.all (fun e => !e.isTokenPrompt) = true)
    (hB : B.all (fun e => !e.isKeystoreReg) = true) :
    noKeystoreAfterToken (A ++ B) = true := by
  induction A with
  | nil => simpa using noKeystoreAfterToken_of_no_keystore B hB
  | cons e A ih =>
    rw [List.all_cons, Bool.and_eq_true] at hA
    rw [List.cons_append, noKeystoreAfterToken]
    have ht : ¬ e.isTokenPrompt = true := by
      simpa using hA.1
    rw [if_neg ht]
    exact ih hA.2

theorem create_repository_ordering (inp : CreateInput) (ks : KeystoreEnv) :
    noKeystoreAfterToken (create_repository inp ks).events = true := by
  unfold create_repository
  by_cases hrep : (inp.pathIsDir && inp.isGitRepository) = true
  · rw [if_pos hrep]
    rfl
  · rw [if_neg hrep]
    have hp1 := registerPassAcc_false_events_keystore ks (effectiveRolesKeyInfos inp)
    have hp1t := all_keystore_all_not_token _ hp1
    cases h1 : (registerPassAcc ks false (effectiveRolesKeyInfos inp)).2 with
    | some e =>
      have := noKeystoreAfterToken_append
        (registerPassAcc ks false (effectiveRolesKeyInfos inp)).1 [] hp1t rfl
      simpa using this
    | none =>
      cases h2 : (registerPassAcc ks true (effectiveRolesKeyInfos inp)).2 with
      | some e =>
        exact noKeystoreAfterToken_append _ _ hp1t
          (registerPassAcc_true_events ks (effectiveRolesKeyInfos inp))
      | none =>
        have hp2 := registerPassAcc_true_events ks (effectiveRolesKeyInfos inp)
        have htail : ((registerPassAcc ks true (effectiveRolesKeyInfos inp)).1 ++
            ((if inp.test then [CreateEvent.testMarker] else []) ++
              [CreateEvent.writeAll])).all (fun e => !e.isKeystoreReg) = true := by
          simp only [List.all_append]
          rw [hp2]
          cases inp.test <;> rfl
        have := noKeystoreAfterToken_append
          (registerPassAcc ks false (effectiveRolesKeyInfos inp)).1 _ hp1t htail
        simpa [List.append_assoc] using this

theorem register_key_declined_error (ks : KeystoreEnv) (keyName : String)
    (hp : ks.present = true) (hl : ks.loadOk keyName = false)
    (hr : ks.regenerate keyName = false) :
    register_key ks keyName = .error .keystoreError := by
  unfold register_key
  simp [hp, hl, hr]

theorem registerKeysAcc_declined_isSome (ks : KeystoreEnv) (roleName : String)
    (info : RoleKeyInfo) (hyk : info.yubikey = false) (hp : ks.present = true) :
    ∀ (nums : List Nat) (k : Nat), k ∈ nums →
      ks.loadOk (get_key_name roleName k info.number) = false →
      ks.regenerate (get_key_name roleName k info.number) = false →
      ((registerKeysAcc ks roleName info nums).2).isSome = true := by
  intro nums
  induction nums with
  | nil =>
    intro k hk
    simp at hk
  | cons k0 rest ih =>
    intro k hk hl hr
    rw [registerKeysAcc]
    simp only [hyk, Bool.false_eq_true, if_false]
    cases hreg : register_key ks (get_key_name roleName k0 info.number) with
    | error e => rfl
    | ok evs =>
      rcases List.mem_cons.mp hk with hk0 | hkr
      · subst hk0
        rw [register_key_declined_error ks _ hp hl hr] at hreg
        cases hreg
      · exact ih k hkr hl hr

theorem registerRolesKeysAcc_declined_isSome (ks : KeystoreEnv) (roleName : String)
    (info : RoleKeyInfo) (hyk : info.yubikey = false) (hp : ks.present = true)
    (k : Nat) (hk : k ∈ List.range info.number)
    (hl : ks.loadOk (get_key_name roleName k info.number) = false)
    (hr : ks.regenerate (get_key_name roleName k info.number) = false) :
    ((registerRolesKeysAcc ks roleName info).2).isSome = true := by
  unfold registerRolesKeysAcc
  cases role_obj roleName with
  | none => rfl
  | some r => exact registerKeysAcc_declined_isSome ks roleName info hyk hp _ k hk hl hr

theorem registerPassAcc_false_declined_isSome (ks : KeystoreEnv)
    (roles : List (String × RoleKeyInfo)) (hp : ks.present = true)
    (hbad : hasDecliningKeystoreFailure roles ks) :
    ((registerPassAcc ks false roles).2).isSome = true := by
  induction roles with
  | nil =>
    obtain ⟨rk, hrk, _⟩ := hbad
    simp at hrk
  | cons rk0 rest ih =>
    obtain ⟨roleName, info⟩ := rk0
    obtain ⟨rk, hrk, hyk, k, hk, hl, hr⟩ := hbad
    rw [registerPassAcc]
    rcases List.mem_cons.mp hrk with heq | hmem
    · subst heq
      rw [if_pos hyk]
      cases he : (registerRolesKeysAcc ks roleName info).2 with
      | some e => rfl
      | none =>
        have := registerRolesKeysAcc_declined_isSome ks roleName info hyk hp k hk hl hr
        rw [he] at this
        simp at this
    · have hrest : hasDecliningKeystoreFailure rest ks := ⟨rk, hmem, hyk, k, hk, hl, hr⟩
      by_cases hyk0 : info.yubikey = false
      · rw [if_pos hyk0]
        cases he : (registerRolesKeysAcc ks roleName info).2 with
        | some e => rfl
        | none => exact ih hrest
      · rw [if_neg hyk0]
        exact ih hrest

/-- Claim C2: in `create_repository`, all roles whose key_info does not set
yubikey are registered before any role whose key_info sets yubikey (no
keystore registration event follows a token prompt in the event trace), and if
any keystore key of a non-yubikey role fails to load and the user declines
regeneration, the operation aborts and no token (YubiKey) prompt is ever
issued and no metadata is written. -/
theorem C2_create_repository_two_pass_fail_fast (inp : CreateInput)
    (ks : KeystoreEnv) :
    noKeystoreAfterToken (create_repository inp ks).events = true ∧
    (¬(inp.pathIsDir = true ∧ inp.isGitRepository = true) →
     ks.present = true →
     hasDecliningKeystoreFailure (effectiveRolesKeyInfos inp) ks →
     ((∃ e, (create_repository inp ks).outcome = .failed e) ∧
      (create_repository inp ks).events.all (fun e => !e.isTokenPrompt) = true ∧
      CreateEvent.writeAll ∉ (create_repository inp ks).events)) := by
  refine ⟨create_repository_ordering inp ks, ?_⟩
  intro hrep hp hbad
  have hb : (inp.pathIsDir && inp.isGitRepository) = false := by
    cases h1 : inp.pathIsDir <;> cases h2 : inp.isGitRepository <;> simp_all
  have hsome := registerPassAcc_false_declined_isSome ks _ hp hbad
  have hp1 := registerPassAcc_false_events_keystore ks (effectiveRolesKeyInfos inp)
  unfold create_repository
  rw [hb]
  simp only [Bool.false_eq_true, if_false]
  cases he : (registerPassAcc ks false (effectiveRolesKeyInfos inp)).2 with
  | none =>
    rw [he] at hsome
    simp at hsome
  | some e =>
    refine ⟨⟨e, rfl⟩, ?_, ?_⟩
    · exact all_keystore_all_not_token _ hp1
    · exact all_keystore_no_writeAll _ hp1

/-- Witness for C2: a configuration with a non-yubikey `root` role whose
keystore file fails to load (regeneration declined) and a yubikey-backed
`targets` role aborts with no token prompt and no write. -/
theorem C2_create_repository_two_pass_fail_fast_witness :
    noKeystoreAfterToken (create_repository
      ⟨[("root", ⟨1, 1, false, 3072⟩), ("targets", ⟨1, 1, true, 3072⟩)], [],
        false, false, false⟩
      ⟨true, fun _ => false, fun _ => false, fun _ => false⟩).events = true ∧
    ((∃ e, (create_repository
      ⟨[("root", ⟨1, 1, false, 3072⟩), ("targets", ⟨1, 1, true, 3072⟩)], [],
        false, false, false⟩
      ⟨true, fun _ => false, fun _ => false, fun _ => false⟩).outcome = .failed e) ∧
     (create_repository
      ⟨[("root", ⟨1, 1, false, 3072⟩), ("targets", ⟨1, 1, true, 3072⟩)], [],
        false, false, false⟩
      ⟨true, fun _ => false, fun _ => false, fun _ => false⟩).events.all
        (fun e => !e.isTokenPrompt) = true ∧
     CreateEvent.writeAll ∉ (create_repository
      ⟨[("root", ⟨1, 1, false, 3072⟩), ("targets", ⟨1, 1, true, 3072⟩)], [],
        false, false, false⟩
      ⟨true, fun _ => false, fun _ => false, fun _ => false⟩).events) :=
  ⟨(C2_create_repository_two_pass_fail_fast _ _).1,
   (C2_create_repository_two_pass_fail_fast _ _).2 (by decide) rfl (by decide)⟩

/-- Claim C5: for every path that already hosts a git repository,
`create_repository` returns at once with no events: nothing is registered and
no metadata file is written (the spec's `AlreadyExists` outcome). -/
theorem C5_create_repository_already_exists (inp : CreateInput)
    (ks : KeystoreEnv) (hdir : inp.pathIsDir = true)
    (hgit : inp.isGitRepository = true) :
    (create_repository inp ks).outcome = .alreadyExists ∧
    (create_repository inp ks).events = [] := by
  unfold create_repository
  rw [hdir, hgit]
  exact ⟨rfl, rfl⟩

/-- Witness for C5: creating over an existing git repository with a root-only
configuration yields `alreadyExists` and an empty event trace. -/
theorem C5_create_repository_already_exists_witness :
    (create_repository ⟨[("root", ⟨1, 1, false, 3072⟩)], [], true, true, false⟩
      ⟨false, fun _ => true, fun _ => true, fun _ => true⟩).outcome = .alreadyExists ∧
    (create_repository ⟨[("root", ⟨1, 1, false, 3072⟩)], [], true, true, false⟩
      ⟨false, fun _ => true, fun _ => true, fun _ => true⟩).events = [] :=
  C5_create_repository_already_exists _ _ rfl rfl

/-- Claim C9 (implicit): `create_repository` only supports the four canonical
top-level roles; for a role name outside `root`, `targets`, `snapshot`,
`timestamp` (e.g. a delegated-targets role), `_role_obj` yields `None` and
registering that role fails (the `threshold` attribute assignment on `None`
raises) rather than creating a delegated role. -/
theorem C9_unknown_role_registration_fails (role : String) (info : RoleKeyInfo)
    (ks : KeystoreEnv)
    (h : role ∉ (["root", "targets", "snapshot", "timestamp"] : List String)) :
    role_obj role = none ∧
    registerRolesKeysAcc ks role info = ([], some .attributeError) := by
  have h1 : ¬ role = "root" := fun he => h (by simp [he])
  have h2 : ¬ role = "targets" := fun he => h (by simp [he])
  have h3 : ¬ role = "snapshot" := fun he => h (by simp [he])
  have h4 : ¬ role = "timestamp" := fun he => h (by simp [he])
  have hobj : role_obj role = none := by
    unfold role_obj
    rw [if_neg h2, if_neg h3, if_neg h4, if_neg h1]
  refine ⟨hobj, ?_⟩
  unfold registerRolesKeysAcc
  rw [hobj]

/-- Witness for C9: registering a role named `delegated1` fails with the
attribute error and produces no registration. -/
theorem C9_unknown_role_registration_fails_witness :
    role_obj "delegated1" = none ∧
    registerRolesKeysAcc ⟨true, fun _ => true, fun _ => true, fun _ => true⟩
      "delegated1" ⟨1, 1, false, 3072⟩ = ([], some .attributeError) :=
  C9_unknown_role_registration_fails "delegated1" ⟨1, 1, false, 3072⟩
    ⟨true, fun _ => true, fun _ => true, fun _ => true⟩ (by decide)

theorem sorted_nodup_paths_perm_eq :
    ∀ l1 l2 : List TargetEntry, l1.Perm l2 → l1.Sorted entryLE →
      l2.Sorted entryLE → (l1.map Prod.fst).Nodup → l1 = l2 := by
  intro l1
  induction l1 with
  | nil =>
    intro l2 hp _ _ _
    exact (List.Perm.eq_nil hp.symm).symm
  | cons a t1 ih =>
    intro l2 hp hs1 hs2 hnd
    cases l2 with
    | nil =>
      have := hp.eq_nil
      simp at this
    | cons b t2 =>
      have hab : a = b := by
        by_contra hne
        have ha : a ∈ b :: t2 := hp.mem_iff.mp (List.mem_cons_self a t1)
        have ha2 : a ∈ t2 := by
          rcases List.mem_cons.mp ha with h | h
          · exact absurd h hne
          · exact h
        have hb : b ∈ a :: t1 := hp.symm.mem_iff.mp (List.mem_cons_self b t2)
        have hb2 : b ∈ t1 := by
          rcases List.mem_cons.mp hb with h | h
          · exact absurd h.symm hne
          · exact h
        have h1 : entryLE a b := (List.sorted_cons.mp hs1).1 b hb2
        have h2 : entryLE b a := (List.sorted_cons.mp hs2).1 a ha2
        have hfst : a.1 = b.1 := le_antisymm h1 h2
        have hmem : a.1 ∈ t1.map Prod.fst := by
          rw [hfst]
          exact List.mem_map_of_mem Prod.fst hb2
        have hnd' : a.1 ∉ t1.map Prod.fst := by
          have : (a.1 :: t1.map Prod.fst).Nodup := by simpa using hnd
          exact (List.nodup_cons.mp this).1
        exact hnd' hmem
      subst hab
      have ht : t1.Perm t2 := hp.cons_inv
      have htl : t1 = t2 := by
        apply ih t2 ht (List.sorted_cons.mp hs1).2 (List.sorted_cons.mp hs2).2
        have : (a.1 :: t1.map Prod.fst).Nodup := by simpa using hnd
        exact (List.nodup_cons.mp this).2
      rw [htl]

theorem register_target_files_eq (w : List TargetEntry) :
    register_target_files w = w := by
  unfold register_target_files add_existing_target
  suffices h : ∀ acc : List TargetEntry,
      w.foldl (fun entries e => entries ++ [e]) acc = acc ++ w by
    simpa using h []
  induction w with
  | nil => intro acc; simp
  | cons e rest ih =>
    intro acc
    simp only [List.foldl_cons, ih]
    simp

/-- Claim C3: for every unchanged targets worktree (the two `os.walk`
traversals produce the same files, with distinct paths, in possibly different
orders), running `register_target_files` twice produces byte-identical
`targets.json`, because target entries are sorted by POSIX path before
emission regardless of directory traversal order. -/
theorem C3_register_target_files_deterministic (walk1 walk2 : List TargetEntry)
    (hperm : walk1.Perm walk2) (hnodup : (walk1.map Prod.fst).Nodup) :
    emitTargetsJson (register_target_files walk1) =
      emitTargetsJson (register_target_files walk2) := by
  rw [register_target_files_eq, register_target_files_eq]
  unfold emitTargetsJson
  congr 1
  apply sorted_nodup_paths_perm_eq
  · exact ((walk1.perm_insertionSort entryLE).trans hperm).trans
      (walk2.perm_insertionSort entryLE).symm
  · exact List.sorted_insertionSort entryLE walk1
  · exact List.sorted_insertionSort entryLE walk2
  · have hpm : ((walk1.insertionSort entryLE).map Prod.fst).Perm
        (walk1.map Prod.fst) := (walk1.perm_insertionSort entryLE).map Prod.fst
    exact hpm.nodup_iff.mpr hnodup

/-- Witness for C3: the walks `[a, z/b, z/a]` and `[z/a, a, z/b]` of the same
worktree emit identical bytes. -/
theorem C3_register_target_files_deterministic_witness :
    (([("a", "ca"), ("z/b", "cb"), ("z/a", "cc")] : List TargetEntry)).Perm
        [("z/a", "cc"), ("a", "ca"), ("z/b", "cb")] ∧
    emitTargetsJson (register_target_files
        [("a", "ca"), ("z/b", "cb"), ("z/a", "cc")]) =
      emitTargetsJson (register_target_files
        [("z/a", "cc"), ("a", "ca"), ("z/b", "cb")]) :=
  ⟨by decide,
   C3_register_target_files_deterministic _ _ (by decide) (by decide)⟩

theorem lastChar_append (s t : String) (c : Char) (h : lastChar t = some c) :
    lastChar (s ++ t) = some c := by
  unfold lastChar at h ⊢
  rw [String.data_append, List.getLast?_append, h]
  rfl

theorem generateRepositoriesEntries_keys (ns : String) (relDirSet : Bool)
    (customData : List (String × List (String × String))) :
    ∀ traversal : List TraversalEntry,
      (generateRepositoriesEntries ns relDirSet customData traversal).map Prod.fst =
        (traversal.filter
          (fun e => e.isDir && !e.isAuthRepo && e.isGitRepository)).map
          (fun e => namespacedName ns e.name) := by
  intro traversal
  induction traversal with
  | nil => rfl
  | cons e rest ih =>
    rw [generateRepositoriesEntries]
    by_cases h1 : (!e.isDir || e.isAuthRepo) = true
    · rw [if_pos h1]
      have hcond : (e.isDir && !e.isAuthRepo && e.isGitRepository) = false := by
        cases hd : e.isDir <;> cases ha : e.isAuthRepo <;> simp_all
      simp [List.filter_cons, hcond, ih]
    · rw [if_neg h1]
      by_cases h2 : (!e.isGitRepository) = true
      · rw [if_pos h2]
        have hcond : (e.isDir && !e.isAuthRepo && e.isGitRepository) = false := by
          cases hg : e.isGitRepository <;> simp_all
        simp [List.filter_cons, hcond, ih]
      · rw [if_neg h2]
        have hcond : (e.isDir && !e.isAuthRepo && e.isGitRepository) = true := by
          cases hd : e.isDir <;> cases ha : e.isAuthRepo <;>
            cases hg : e.isGitRepository <;> simp_all
        simp [List.filter_cons, hcond, ih]

/-- Claim C6 as stated is false on the code: with a traversal that yields git
directory `b` before `a` under namespace `ns`, the `repositories.json` keys
come out in traversal order `ns/b, ns/a` (not lexicographic — `json.dumps` is
called without `sort_keys` on a dict filled in traversal order), and the file
bytes do not end in a newline (`write_text(json.dumps(...))` emits none). -/
theorem C6_counterexample :
    ¬ (List.Sorted (fun a b : String => a ≤ b)
         ((generateRepositoriesEntries "ns" false []
           [⟨"b", true, false, true, none, "/r/ns/b", "ns/b"⟩,
            ⟨"a", true, false, true, none, "/r/ns/a", "ns/a"⟩]).map Prod.fst) ∧
       lastChar (generate_repositories_json "ns" false []
           [⟨"b", true, false, true, none, "/r/ns/b", "ns/b"⟩,
            ⟨"a", true, false, true, none, "/r/ns/a", "ns/a"⟩]) = some '\n') := by
  intro h
  have hs := h.1
  have hkeys : (generateRepositoriesEntries "ns" false []
      [⟨"b", true, false, true, none, "/r/ns/b", "ns/b"⟩,
       ⟨"a", true, false, true, none, "/r/ns/a", "ns/a"⟩]).map Prod.fst
      = ["ns/b", "ns/a"] := by decide
  rw [hkeys] at hs
  have hle : ("ns/b" : String) ≤ "ns/a" :=
    (List.sorted_cons.mp hs).1 "ns/a" (by simp)
  rw [String.le_iff_toList_le] at hle
  revert hle
  decide

/-- Claim C6 amended: `generate_repositories_json` writes
`targets/repositories.json` with indent 4 (the `json.dumps(..., indent=4)`
rendering embedded in `reposJsonDumps`), with repository keys in directory
traversal order — lexicographic only when the traversal itself is sorted — and
with no trailing newline (the last byte is the closing brace). -/
theorem C6_generate_repositories_json_format (ns : String) (relDirSet : Bool)
    (customData : List (String × List (String × String)))
    (traversal : List TraversalEntry) :
    (generateRepositoriesEntries ns relDirSet customData traversal).map Prod.fst =
      (traversal.filter
        (fun e => e.isDir && !e.isAuthRepo && e.isGitRepository)).map
        (fun e => namespacedName ns e.name) ∧
    lastChar (generate_repositories_json ns relDirSet customData traversal) =
      some '\x7d' := by
  refine ⟨generateRepositoriesEntries_keys ns relDirSet customData traversal, ?_⟩
  unfold generate_repositories_json reposJsonDumps
  cases generateRepositoriesEntries ns relDirSet customData traversal with
  | nil => decide
  | cons p rest => exact lastChar_append _ _ _ (by decide)

theorem jsonDescriptor_eq_spec (commit branch : String) (addBranch : Bool) :
    jsonDescriptor commit (if addBranch then some branch else none) =
      specDescriptorJson commit branch addBranch := by
  cases addBranch
  · simp [jsonDescriptor, specDescriptorJson, String.append_assoc]
  · simp [jsonDescriptor, specDescriptorJson, String.append_assoc]

/-- Claim C7: for every target-repo directory that is a git repository (and is
not the auth repository itself) with HEAD commit `C` and current branch `B`,
`_update_target_repos` writes `targets_dir/<name>` whose content is the JSON
object with the `commit` key, extended with the `branch` key exactly when
`add_branch` is true, rendered with indent 4 and no trailing newline. -/
theorem C7_update_target_repos_descriptor (repoPath targetRepoPath targetsDir
    repoName : String) (st : TargetRepoState) (addBranch : Bool)
    (hdir : st.isDir = true) (hne : ¬ targetRepoPath = repoPath)
    (hgit : st.isGitRepository = true) :
    update_target_repos repoPath targetRepoPath targetsDir repoName st addBranch =
      some (targetsDir ++ "/" ++ repoName,
        specDescriptorJson st.headCommitSha st.currentBranch addBranch) ∧
    lastChar (specDescriptorJson st.headCommitSha st.currentBranch addBranch) ≠
      some '\n' := by
  constructor
  · unfold update_target_repos
    rw [hdir, hgit]
    simp only [Bool.not_true, Bool.false_or, decide_eq_true_eq]
    rw [if_neg hne]
    simp only [Bool.not_true, Bool.false_eq_true, if_false]
    rw [jsonDescriptor_eq_spec]
  · have hlast : lastChar (specDescriptorJson st.headCommitSha st.currentBranch
        addBranch) = some '\x7d' := by
      cases addBranch
      · unfold specDescriptorJson
        simp only [Bool.false_eq_true, if_false]
        exact lastChar_append _ _ _ (by decide)
      · unfold specDescriptorJson
        simp only [if_true]
        exact lastChar_append _ _ _ (by decide)
    rw [hlast]
    simp

/-- Witness for C7: a git directory `target1` with commit `abc` on branch
`main`, registered with `add_branch` on, produces the two-key descriptor. -/
theorem C7_update_target_repos_descriptor_witness :
    update_target_repos "auth" "repos/target1" "auth/targets" "target1"
        ⟨true, true, "abc", "main"⟩ true =
      some ("auth/targets" ++ "/" ++ "target1",
        specDescriptorJson "abc" "main" true) ∧
    lastChar (specDescriptorJson "abc" "main" true) ≠ some '\n' :=
  C7_update_target_repos_descriptor "auth" "repos/target1" "auth/targets"
    "target1" ⟨true, true, "abc", "main"⟩ true rfl (by decide) rfl

/-- Claim C4 as stated is false on the code: with one configured key
(`N = 1`, `T = 1`) for role `root` and a keystore directory holding files named
both `root` and `root1`, `_load_signing_keys` loads both files, returning a
list of length 2 > N (the candidate-name list `[role, role1, …, roleN]` has
`N + 1` entries). -/
theorem C4_counterexample :
    ¬ (1 ≤ (load_signing_keys "root" 1 1
        ⟨some ["root", "root1"], some false, fun _ => false, fun _ => false⟩).1.length ∧
       (load_signing_keys "root" 1 1
        ⟨some ["root", "root1"], some false, fun _ => false, fun _ => false⟩).1.length ≤ 1) := by
  decide

/-- Claim C4 amended: for a role whose `role_key_infos` entry sets
`yubikey: false` and whose threshold `T` is at most the configured key count
`N`, `_load_signing_keys` returns a list of length at least `T` and at most
`N + 1` — not at most `N`: the keystore candidate-name list `[role, role1, …,
roleN]` has `N + 1` entries, so one extra key is loaded when the keystore holds
both the unsuffixed and all suffixed key files.  (When keys are yubikey-backed
they are recorded in `loaded_yubikeys` rather than returned, so without the
`yubikey: false` restriction the lower bound fails as well.) -/
theorem C4_load_signing_keys_length (role : String) (threshold signingKeysNum : Nat)
    (env : KeyLoadEnv) (hyk : env.roleKeyInfoYubikey = some false)
    (hTN : threshold ≤ signingKeysNum) :
    threshold ≤ (load_signing_keys role threshold signingKeysNum env).1.length ∧
    (load_signing_keys role threshold signingKeysNum env).1.length ≤ signingKeysNum + 1 := by
  unfold load_signing_keys
  rw [hyk]
  set keys0 : List String := keystoreLoadedKeys role signingKeysNum env.keystore with hkeys0
  have hk0 : keys0.length ≤ signingKeysNum + 1 := by
    rw [hkeys0]
    unfold keystoreLoadedKeys
    cases env.keystore with
    | none => simp
    | some files =>
      simp only [List.length_map]
      calc ((keystoreCandidateNames role signingKeysNum).filter
              (fun n => files.contains n)).length
          ≤ (keystoreCandidateNames role signingKeysNum).length :=
            List.length_filter_le _ _
        _ = signingKeysNum + 1 := by
            simp [keystoreCandidateNames]
  refine ⟨?_, ?_⟩
  · exact lskLoop_threshold_le role threshold signingKeysNum env.confirmMore
      env.confirmYubikey hTN _ keys0.length keys0 [] rfl rfl
  · have := lskLoop_length_le role threshold signingKeysNum (some false)
      env.confirmMore env.confirmYubikey (signingKeysNum - keys0.length)
      keys0.length keys0 []
    omega

/-- Witness for the amended C4: role `targets` with threshold 1 and two
configured keys, a keystore holding only `targets1`, yields between 1 and 3
loaded keys. -/
theorem C4_load_signing_keys_length_witness :
    1 ≤ (load_signing_keys "targets" 1 2
        ⟨some ["targets1"], some false, fun _ => false, fun _ => false⟩).1.length ∧
    (load_signing_keys "targets" 1 2
        ⟨some ["targets1"], some false, fun _ => false, fun _ => false⟩).1.length ≤ 2 + 1 :=
  C4_load_signing_keys_length "targets" 1 2
    ⟨some ["targets1"], some false, fun _ => false, fun _ => false⟩ rfl (by decide)

/-- Claim C1 as stated is false on the code: it quantifies over every role,
but for role `root` with keystore keys loaded the `update_methods` dictionary
has no `root_keystore` entry, so the source catches the `KeyError`
(src/taf/developer_tool.py lines 793-795), prints "Cannot update" — and even
"Updated expiration date" — and returns without raising `MonotonicViolation`:
here with current expiration 5 and proposed expiration 3 + 0 ≤ 5 the call does
not fail with `MonotonicViolation` (it no-ops with no error). -/
theorem C1_counterexample :
    ¬ ((3 : Int) + 0 ≤ (5 : Int) →
      (update_metadata_expiration_date "root" ⟨5⟩ 3 0 true false) =
        { metadata := ⟨5⟩, written := false,
          error := some TafError.monotonicViolation }) := by
  decide

/-- Claim C1 amended: for every call to `update_metadata_expiration_date` that
actually dispatches a refresh — keystore keys loaded and the role one of
`timestamp`, `snapshot`, `targets`, or no keystore key loaded and a yubikey
holding a targets key for role `targets` — a proposed expiration
`start_date + interval` not later than the currently recorded one fails with
`MonotonicViolation` and writes no metadata, and whenever a write happens the
new expiration is strictly later than the old one.  (For the remaining calls,
such as role `root` or nothing loaded, the source catches the `KeyError` and
returns without updating or raising.) -/
theorem C1_refresh_expiration_monotone (role : String) (md : RoleMetadata)
    (startDate interval : Int) (keysLoaded yubikeyTargetsLoaded : Bool)
    (hatt : refreshAttempted role keysLoaded yubikeyTargetsLoaded) :
    (startDate + interval ≤ md.expiration →
      (update_metadata_expiration_date role md startDate interval keysLoaded
          yubikeyTargetsLoaded) =
        { metadata := md, written := false, error := some .monotonicViolation }) ∧
    ((update_metadata_expiration_date role md startDate interval keysLoaded
        yubikeyTargetsLoaded).written = true →
      md.expiration <
        (update_metadata_expiration_date role md startDate interval keysLoaded
          yubikeyTargetsLoaded).metadata.expiration) := by
  unfold update_metadata_expiration_date refreshExpiration
  rcases hatt with ⟨hk, hrole⟩ | ⟨hk, hyt, hrole⟩
  · subst hk
    simp only [if_true, if_pos hrole]
    constructor
    · intro hle
      simp [hle]
    · intro hw
      by_cases hle : startDate + interval ≤ md.expiration
      · simp [hle] at hw
      · simp only [if_neg hle]
        exact lt_of_not_le hle
  · subst hk hyt hrole
    simp only [Bool.false_eq_true, if_false, if_true]
    constructor
    · intro hle
      simp [hle]
    · intro hw
      by_cases hle : startDate + interval ≤ md.expiration
      · simp [hle] at hw
      · simp only [if_neg hle] at hw ⊢
        exact lt_of_not_le hle

/-- Witness for C1: refreshing the snapshot role from expiration 5 with
proposed expiration 3 + 0 fails with MonotonicViolation without writing, and a
successful write always strictly advances the expiration. -/
theorem C1_refresh_expiration_monotone_witness :
    ((3 : Int) + 0 ≤ (5 : Int) →
      (update_metadata_expiration_date "snapshot" ⟨5⟩ 3 0 true false) =
        { metadata := ⟨5⟩, written := false, error := some .monotonicViolation }) ∧
    ((update_metadata_expiration_date "snapshot" ⟨5⟩ 3 0 true false).written = true →
      (5 : Int) <
        (update_metadata_expiration_date "snapshot" ⟨5⟩ 3 0 true false).metadata.expiration) :=
  C1_refresh_expiration_monotone "snapshot" ⟨5⟩ 3 0 true false (by decide)

/-- Claim C8 concerns a code bug: with a `repositories.json` whose first
repository name `repo1` holds no `/`, the loop of
`update_target_repos_from_repositories_json` references `targets_dir` before
any assignment — Python's `UnboundLocalError` — instead of falling back to
`auth_repo_targets_dir` as the spec requires: the operation fails and no
fallback happens. -/
theorem C8_unbound_targets_dir :
    update_target_repos_from_repositories_json "auth/targets" ["repo1"] =
      .error .unboundLocal := rfl

/-- Claim C10 (implicit): the metadata writing of `register_target_files`
signs with at most one keystore key per role: `_write_targets_metadata` passes
only `targets_keys[0]`, `snapshot_keys[0]` and `timestamp_keys[0]` to the
update calls, ignoring every further loaded key, so a role with threshold
greater than 1 cannot gather threshold-many keystore signatures through this
operation. -/
theorem C10_write_targets_metadata_single_key (tk sk tsk : String)
    (tRest sRest tsRest : List String) (yt : Bool) :
    write_targets_metadata (tk :: tRest) (sk :: sRest) (tsk :: tsRest) yt =
      .ok [.updateTargetsFromKeystore tk,
           .updateSnapshotAndTimestamp sk tsk, .writeAll] ∧
    usedTargetsKeys [.updateTargetsFromKeystore tk,
        .updateSnapshotAndTimestamp sk tsk, .writeAll] = [tk] ∧
    (∀ T : Nat, 1 < T →
      (usedTargetsKeys [.updateTargetsFromKeystore tk,
        .updateSnapshotAndTimestamp sk tsk, .writeAll]).length < T) := by
  refine ⟨rfl, rfl, ?_⟩
  intro T hT
  simpa [usedTargetsKeys] using hT

/-- Witness for C10: two loaded targets keys, two snapshot keys and one
timestamp key produce exactly one signing key per role, below a threshold of
2. -/
theorem C10_write_targets_metadata_single_key_witness :
    write_targets_metadata ["t1", "t2"] ["s1", "s2"] ["ts1"] false =
      .ok [.updateTargetsFromKeystore "t1",
           .updateSnapshotAndTimestamp "s1" "ts1", .writeAll] ∧
    usedTargetsKeys [.updateTargetsFromKeystore "t1",
        .updateSnapshotAndTimestamp "s1" "ts1", .writeAll] = ["t1"] ∧
    (usedTargetsKeys [.updateTargetsFromKeystore "t1",
        .updateSnapshotAndTimestamp "s1" "ts1", .writeAll]).length < 2 :=
  ⟨(C10_write_targets_metadata_single_key "t1" "s1" "ts1" ["t2"] ["s2"] [] false).1,
   (C10_write_targets_metadata_single_key "t1" "s1" "ts1" ["t2"] ["s2"] [] false).2.1,
   (C10_write_targets_metadata_single_key "t1" "s1" "ts1" ["t2"] ["s2"] [] false).2.2
     2 (by decide)⟩

end Taf
